import Mathlib

/-!
Shallow embedding of the `covid19` command-line tracker (src/main.go): the
data-ingestion, index-building, aggregation and delta pipeline, together with
theorems checking the design specification's claims against it.

Modelling conventions:
* Go's `map[string][]DayItem` (the global `AllValues`) is embedded as an
  association list `List (String × List DayItem)`; a fixed list order stands
  for the arbitrary iteration order of a Go `range` over a map, and theorems
  quantified over all association lists cover all iteration orders.
* Go `int` is embedded as `Int`.  The `float64` chart accumulators only ever
  hold sums of `int` counts, so they are embedded as `Int` as well.
* A Go runtime panic from `countryItem[len-2]` on a short slice is embedded
  as the explicit value `GoErr.panicIndexOutOfRange`.
* Raw JSON bytes are abstracted to parsed JSON trees (`Json`).  The calls to
  `jsonparser.ObjectEach`, `jsonparser.ArrayEach` and `encoding/json`'s
  `Unmarshal` are modelled on those trees following their documented
  semantics: `ObjectEach` fails unless the top level is an object;
  `ArrayEach`'s error is ignored by the caller, so a non-array country value
  yields an empty series; `Unmarshal` into a struct sets the fields it can
  decode, skips a field whose JSON value has the wrong type (reporting an
  error), leaves the struct untouched on `null`, and fails without setting
  anything when the element is not an object.
-/

/-- `DayItem` (src/main.go:25-30): one country's cumulative counts on one
date. -/
structure DayItem where
  date : String
  confirmed : Int
  deaths : Int
  recovered : Int
  deriving DecidableEq, Repr

/-- The Go zero value of `DayItem` (`var dayItem DayItem`). -/
def zeroDayItem : DayItem := ⟨"", 0, 0, 0⟩

/-- `Pair` (src/main.go:32-35): one `RankIndex` entry. -/
structure Pair where
  Key : String
  Value : Int
  deriving DecidableEq, Repr

/-- The decoded dataset: the Go map `AllValues` as an association list. -/
abbrev Dataset : Type := List (String × List DayItem)

/-- `v[len(v)-1]`, the latest record of a series (total model: the Go code
panics on an empty series, so theorems about it assume non-emptiness). -/
def lastItem (s : List DayItem) : DayItem := s.getLastD zeroDayItem

/-- Parsed JSON values, abstracting the raw bytes fed to the decoder. -/
inductive Json where
  | null
  | bool (b : Bool)
  | num (n : Int)
  | str (s : String)
  | arr (elems : List Json)
  | obj (fields : List (String × Json))
  deriving Repr

/-- One field assignment of `json.Unmarshal` into a `DayItem`
(src/main.go:213-216 together with the struct tags at 25-30): a field whose
JSON value has the wrong type is skipped and the error flag cleared, `null`
leaves the field untouched, unknown keys are ignored. -/
def setField (acc : DayItem × Bool) (kv : String × Json) : DayItem × Bool :=
  match kv with
  | ("date", Json.str s) => ({ acc.1 with date := s }, acc.2)
  | ("date", Json.null) => acc
  | ("date", _) => (acc.1, false)
  | ("confirmed", Json.num n) => ({ acc.1 with confirmed := n }, acc.2)
  | ("confirmed", Json.null) => acc
  | ("confirmed", _) => (acc.1, false)
  | ("deaths", Json.num n) => ({ acc.1 with deaths := n }, acc.2)
  | ("deaths", Json.null) => acc
  | ("deaths", _) => (acc.1, false)
  | ("recovered", Json.num n) => ({ acc.1 with recovered := n }, acc.2)
  | ("recovered", Json.null) => acc
  | ("recovered", _) => (acc.1, false)
  | _ => acc

/-- `json.Unmarshal(arrValue, &dayItem)` (src/main.go:213-216): returns the
(possibly partially filled) item and whether unmarshalling succeeded.  On
failure the item is still used by the caller. -/
def unmarshalDayItem (j : Json) : DayItem × Bool :=
  match j with
  | Json.obj kvs => kvs.foldl setField (zeroDayItem, true)
  | Json.null => (zeroDayItem, true)
  | _ => (zeroDayItem, false)

/-- The `jsonparser.ArrayEach` loop building one country's series
(src/main.go:211-218): every element of the array contributes one item,
well-formed or not; a non-array value leaves the series empty because the
returned error is discarded. -/
def decodeCountry (j : Json) : List DayItem :=
  match j with
  | Json.arr elems => elems.map (fun e => (unmarshalDayItem e).1)
  | _ => []

/-- Decode failure of `jsonparser.ObjectEach` (src/main.go:209, 231). -/
inductive DecodeErr where
  | notObject
  deriving DecidableEq, Repr

/-- The `jsonparser.ObjectEach` decode in `FetchData` (src/main.go:209-221):
fails unless the top level is a JSON object, otherwise produces one series
per key. -/
def decodeDataset (j : Json) : Except DecodeErr Dataset :=
  match j with
  | Json.obj kvs => Except.ok (kvs.map (fun p => (p.1, decodeCountry p.2)))
  | _ => Except.error DecodeErr.notObject

/-- `NameSortedCountries` (src/main.go:222-225): all keys, sorted ascending
by `sort.Strings`.  Go compares strings byte-wise; on valid UTF-8 this agrees
with the code-point lexicographic order of Lean's `String` order. -/
def buildNameIndex (data : Dataset) : List String :=
  (data.map Prod.fst).mergeSort (fun a b => decide (a ≤ b))

/-- `ValueSortedCountries` (src/main.go:227-230): each country paired with
the confirmed count of its last record, sorted by `sort.Sort` with
`Less i j = p[i].Value > p[j].Value`, i.e. descending by count.  `sort.Sort`
is unstable; `mergeSort` realises one valid result order. -/
def buildRankIndex (data : Dataset) : List Pair :=
  (data.map (fun p => Pair.mk p.1 (lastItem p.2).confirmed)).mergeSort
    (fun a b => decide (b.Value ≤ a.Value))

/-- The totals loop of `PrintSummary` (src/main.go:238-244): fold the last
record of every country into the three accumulators. -/
def summaryTriple (data : Dataset) : Int × Int × Int :=
  data.foldl
    (fun acc p =>
      (acc.1 + (lastItem p.2).confirmed, acc.2.1 + (lastItem p.2).deaths,
        acc.2.2 + (lastItem p.2).recovered))
    (0, 0, 0)

/-- Failures of the query functions: a missing country key
(src/main.go:291, 379, 495) or the runtime panic from indexing
`countryItem[len-2]` on a series with fewer than two records
(src/main.go:272, 283). -/
inductive GoErr where
  | countryNotFound
  | panicIndexOutOfRange
  deriving DecidableEq, Repr

/-- One row of the `PrintCountry` table (src/main.go:264, 287-289). -/
structure DetailRow where
  country : String
  confirmed : Int
  deaths : Int
  recovered : Int
  newConfirmed : Int
  newDeaths : Int
  newRecovered : Int
  deriving DecidableEq, Repr

/-- The single-country branch of `PrintCountry` (src/main.go:280-292):
look the country up, read the last and second-to-last records and report
the cumulative counts with day-over-day deltas.  `countryItem[len-2]` on a
series of length < 2 is a Go index-out-of-range panic, embedded as
`GoErr.panicIndexOutOfRange`. -/
def countryDetail (data : Dataset) (country : String) : Except GoErr DetailRow :=
  match data.lookup country with
  | some countryItem =>
    if 2 ≤ countryItem.length then
      let lItem := countryItem.getLastD zeroDayItem
      let mlItem := countryItem.dropLast.getLastD zeroDayItem
      Except.ok
        ⟨country, lItem.confirmed, lItem.deaths, lItem.recovered,
          lItem.confirmed - mlItem.confirmed, lItem.deaths - mlItem.deaths,
          lItem.recovered - mlItem.recovered⟩
    else Except.error GoErr.panicIndexOutOfRange
  | none => Except.error GoErr.countryNotFound

/-- The items visited by the backwards loop
`for i := len(s)-1; i >= 0; i--` with the `j++; ...; if j == max break`
control (src/main.go:346-357, 368-377, 463-473, 485-492), in visit order
(newest record first), starting from counter value `j`. -/
def loopItems (max : Int) : List DayItem → Int → List DayItem
  | [], _ => []
  | x :: xs, j => x :: (if j + 1 = max then [] else loopItems max xs (j + 1))

/-- The records of a series visited by one run of the backwards loop:
the reversed series, cut off after `max` items (all items when `max ≤ 0`,
matching the Go loop, whose counter never equals a non-positive `max`). -/
def visitOrder (s : List DayItem) (max : Int) : List DayItem :=
  loopItems max s.reverse 0

/-- The single-country branch of `DrawCountryBarChart` /
`DrawCountryLineChart` (src/main.go:365-381, 482-497 with the final
reversals at 383-386, 499-501): the last `max` records, reversed back into
chronological order; an unknown country is an error. -/
def windowedCountrySeries (data : Dataset) (country : String) (max : Int) :
    Except GoErr (List DayItem) :=
  match data.lookup country with
  | some countryItem => Except.ok (visitOrder countryItem max).reverse
  | none => Except.error GoErr.countryNotFound

/-- State of the "all countries" aggregation loops: the label list and the
three per-date accumulator maps (Go `map[string]float64`, reads of missing
keys yielding 0). -/
structure AggState where
  labels : List String
  cMap : String → Int
  dMap : String → Int
  rMap : String → Int

/-- Writing one key of a Go map. -/
def mapUpd (m : String → Int) (k : String) (v : Int) : String → Int :=
  fun x => if x = k then v else m x

/-- Empty aggregation state. -/
def initAgg : AggState := ⟨[], fun _ => 0, fun _ => 0, fun _ => 0⟩

/-- One iteration of the "all" accumulation loop body of
`DrawCountryLineChart` (src/main.go:463-473): labels are appended only while
processing the first country (`index == 0`), and each of the three maps
accumulates its own metric at the record's date. -/
def stepLine (index : Nat) (st : AggState) (x : DayItem) : AggState :=
  { labels := if index = 0 then st.labels ++ [x.date] else st.labels
    cMap := mapUpd st.cMap x.date (st.cMap x.date + x.confirmed)
    dMap := mapUpd st.dMap x.date (st.dMap x.date + x.deaths)
    rMap := mapUpd st.rMap x.date (st.rMap x.date + x.recovered) }

/-- One iteration of the "all" accumulation loop body of
`DrawCountryBarChart` (src/main.go:346-357): identical to `stepLine` except
line 353, which reads the deaths accumulator `dMap` (already updated on line
352) instead of `rMap` when accumulating recoveries. -/
def stepBar (index : Nat) (st : AggState) (x : DayItem) : AggState :=
  { labels := if index = 0 then st.labels ++ [x.date] else st.labels
    cMap := mapUpd st.cMap x.date (st.cMap x.date + x.confirmed)
    dMap := mapUpd st.dMap x.date (st.dMap x.date + x.deaths)
    rMap := mapUpd st.rMap x.date (st.dMap x.date + x.deaths + x.recovered) }

/-- One country's contribution to the "all" aggregation: the backwards
windowed loop folding the given loop body over the visited records. -/
def aggCountry (step : Nat → AggState → DayItem → AggState) (max : Int)
    (index : Nat) (st : AggState) (s : List DayItem) : AggState :=
  (visitOrder s max).foldl (step index) st

/-- The outer `for _, countryItem := range AllValues` loop of the "all"
branches (src/main.go:344-359, 461-476), threading the country index. -/
def aggAll (step : Nat → AggState → DayItem → AggState) (max : Int) :
    AggState → Dataset → Nat → AggState
  | st, [], _ => st
  | st, (_, s) :: rest, index =>
    aggAll step max (aggCountry step max index st s) rest (index + 1)

/-- The final aligned "all countries" view: rows `(date, confirmed, deaths,
recovered)` read from the accumulator maps over the labels, after the final
`ReverseStrings`/`ReverseFloats` (src/main.go:360-364 and 383-386; 477-481
and 499-501). -/
def alignedView (step : Nat → AggState → DayItem → AggState) (data : Dataset)
    (max : Int) : List (String × Int × Int × Int) :=
  let st := aggAll step max initAgg data 0
  st.labels.reverse.map (fun d => (d, st.cMap d, st.dMap d, st.rMap d))

/-- The aligned view produced by `DrawCountryBarChart`. -/
def alignedBar (data : Dataset) (max : Int) : List (String × Int × Int × Int) :=
  alignedView stepBar data max

/-- The aligned view produced by `DrawCountryLineChart`. -/
def alignedLine (data : Dataset) (max : Int) : List (String × Int × Int × Int) :=
  alignedView stepLine data max

/-- Per the spec's `aggregateAcrossCountries`: the independent sum of the
metric `f` over exactly the countries that have a record with date `d`
among their last `max` records. -/
def specSumAt (f : DayItem → Int) (max : Int) (data : Dataset) (d : String) : Int :=
  (data.map
    (fun p => (((visitOrder p.2 max).filter (fun x => x.date = d)).map f).sum)).sum

/-! ### Helper lemmas about the windowed backwards loop -/

lemma loopItems_eq_take (max : Int) :
    ∀ (l : List DayItem) (j : Int), j < max →
      loopItems max l j = l.take (max - j).toNat
  | [], j, _ => by simp [loopItems]
  | x :: xs, j, h => by
    rw [loopItems]
    by_cases hj : j + 1 = max
    · have h1 : (max - j).toNat = 1 := by omega
      simp [hj, h1]
    · have h1 : j + 1 < max := by omega
      have h2 : (max - j).toNat = (max - (j + 1)).toNat + 1 := by omega
      rw [if_neg hj, loopItems_eq_take max xs (j + 1) h1, h2, List.take_succ_cons]

lemma visitOrder_eq_take (s : List DayItem) (max : Int) (h : 1 ≤ max) :
    visitOrder s max = s.reverse.take max.toNat := by
  rw [visitOrder, loopItems_eq_take max s.reverse 0 (by omega)]
  norm_num

lemma visitOrder_reverse (s : List DayItem) (max : Int) (h : 1 ≤ max) :
    (visitOrder s max).reverse = s.drop (s.length - max.toNat) := by
  rw [visitOrder_eq_take s max h, List.take_reverse, List.reverse_reverse]

/-! ### Helper lemmas about the "all countries" aggregation -/

lemma stepLine_cMap (index : Nat) (st : AggState) (x : DayItem) (d : String) :
    (stepLine index st x).cMap d
      = st.cMap d + (if x.date = d then x.confirmed else 0) := by
  by_cases hx : x.date = d
  · simp [stepLine, mapUpd, hx]
  · have hd : d ≠ x.date := fun h => hx h.symm
    simp [stepLine, mapUpd, hd, hx]

lemma stepLine_dMap (index : Nat) (st : AggState) (x : DayItem) (d : String) :
    (stepLine index st x).dMap d
      = st.dMap d + (if x.date = d then x.deaths else 0) := by
  by_cases hx : x.date = d
  · simp [stepLine, mapUpd, hx]
  · have hd : d ≠ x.date := fun h => hx h.symm
    simp [stepLine, mapUpd, hd, hx]

lemma stepLine_rMap (index : Nat) (st : AggState) (x : DayItem) (d : String) :
    (stepLine index st x).rMap d
      = st.rMap d + (if x.date = d then x.recovered else 0) := by
  by_cases hx : x.date = d
  · simp [stepLine, mapUpd, hx]
  · have hd : d ≠ x.date := fun h => hx h.symm
    simp [stepLine, mapUpd, hd, hx]

lemma foldl_stepLine_cMap (index : Nat) (d : String) :
    ∀ (items : List DayItem) (st : AggState),
      (items.foldl (stepLine index) st).cMap d
        = st.cMap d + (items.map (fun x => if x.date = d then x.confirmed else 0)).sum
  | [], st => by simp
  | x :: xs, st => by
    rw [List.foldl_cons, foldl_stepLine_cMap index d xs _, stepLine_cMap]
    simp only [List.map_cons, List.sum_cons]
    omega

lemma foldl_stepLine_dMap (index : Nat) (d : String) :
    ∀ (items : List DayItem) (st : AggState),
      (items.foldl (stepLine index) st).dMap d
        = st.dMap d + (items.map (fun x => if x.date = d then x.deaths else 0)).sum
  | [], st => by simp
  | x :: xs, st => by
    rw [List.foldl_cons, foldl_stepLine_dMap index d xs _, stepLine_dMap]
    simp only [List.map_cons, List.sum_cons]
    omega

lemma foldl_stepLine_rMap (index : Nat) (d : String) :
    ∀ (items : List DayItem) (st : AggState),
      (items.foldl (stepLine index) st).rMap d
        = st.rMap d + (items.map (fun x => if x.date = d then x.recovered else 0)).sum
  | [], st => by simp
  | x :: xs, st => by
    rw [List.foldl_cons, foldl_stepLine_rMap index d xs _, stepLine_rMap]
    simp only [List.map_cons, List.sum_cons]
    omega

lemma sum_filter_eq_sum_ite (f : DayItem → Int) (d : String) :
    ∀ items : List DayItem,
      ((items.filter (fun x => x.date = d)).map f).sum
        = (items.map (fun x => if x.date = d then f x else 0)).sum
  | [] => rfl
  | x :: xs => by
    by_cases hx : x.date = d <;>
      simp [List.filter_cons, hx, sum_filter_eq_sum_ite f d xs]

lemma foldl_stepLine_labels_ne_zero (index : Nat) (h : index ≠ 0) :
    ∀ (items : List DayItem) (st : AggState),
      (items.foldl (stepLine index) st).labels = st.labels
  | [], st => rfl
  | x :: xs, st => by
    rw [List.foldl_cons, foldl_stepLine_labels_ne_zero index h xs _]
    simp [stepLine, h]

lemma foldl_stepLine_labels_zero :
    ∀ (items : List DayItem) (st : AggState),
      (items.foldl (stepLine 0) st).labels = st.labels ++ items.map DayItem.date
  | [], st => by simp
  | x :: xs, st => by
    rw [List.foldl_cons, foldl_stepLine_labels_zero xs _]
    simp [stepLine]

lemma specSumAt_cons (f : DayItem → Int) (max : Int) (c : String)
    (s : List DayItem) (rest : Dataset) (d : String) :
    specSumAt f max ((c, s) :: rest) d
      = (((visitOrder s max).filter (fun x => x.date = d)).map f).sum
        + specSumAt f max rest d := by
  simp [specSumAt]

lemma aggAll_stepLine_labels (max : Int) :
    ∀ (data : Dataset) (st : AggState) (index : Nat), 1 ≤ index →
      (aggAll stepLine max st data index).labels = st.labels
  | [], _, _, _ => rfl
  | (c, s) :: rest, st, index, h => by
    rw [aggAll, aggAll_stepLine_labels max rest _ (index + 1) (by omega)]
    exact foldl_stepLine_labels_ne_zero index (by omega) _ st

lemma aggAll_stepLine_cMap (max : Int) :
    ∀ (data : Dataset) (st : AggState) (index : Nat) (d : String),
      (aggAll stepLine max st data index).cMap d
        = st.cMap d + specSumAt DayItem.confirmed max data d
  | [], st, index, d => by simp [aggAll, specSumAt]
  | (c, s) :: rest, st, index, d => by
    rw [aggAll, aggAll_stepLine_cMap max rest _ (index + 1) d, aggCountry,
      foldl_stepLine_cMap, specSumAt_cons, sum_filter_eq_sum_ite]
    omega

lemma aggAll_stepLine_dMap (max : Int) :
    ∀ (data : Dataset) (st : AggState) (index : Nat) (d : String),
      (aggAll stepLine max st data index).dMap d
        = st.dMap d + specSumAt DayItem.deaths max data d
  | [], st, index, d => by simp [aggAll, specSumAt]
  | (c, s) :: rest, st, index, d => by
    rw [aggAll, aggAll_stepLine_dMap max rest _ (index + 1) d, aggCountry,
      foldl_stepLine_dMap, specSumAt_cons, sum_filter_eq_sum_ite]
    omega

lemma aggAll_stepLine_rMap (max : Int) :
    ∀ (data : Dataset) (st : AggState) (index : Nat) (d : String),
      (aggAll stepLine max st data index).rMap d
        = st.rMap d + specSumAt DayItem.recovered max data d
  | [], st, index, d => by simp [aggAll, specSumAt]
  | (c, s) :: rest, st, index, d => by
    rw [aggAll, aggAll_stepLine_rMap max rest _ (index + 1) d, aggCountry,
      foldl_stepLine_rMap, specSumAt_cons, sum_filter_eq_sum_ite]
    omega

/-! ### Claim theorems -/

/-- C1 (code bug): on the dataset `{A: [(d1,1,1,1)], B: [(d1,2,2,5)]}` with a
1-day window, `DrawCountryBarChart`'s "all countries" aggregation reports a
recovered sum of 8 — the deaths accumulator plus the last country's recovered
count (src/main.go:353 reads `dMap` instead of `rMap`) — while the
independent sum of the participating countries' `recovered` fields is 6, the
value the claim (and `DrawCountryLineChart`, src/main.go:470) prescribes. -/
theorem bar_recovered_uses_deaths_accumulator :
    alignedBar [("A", [⟨"d1", 1, 1, 1⟩]), ("B", [⟨"d1", 2, 2, 5⟩])] 1
      = [("d1", 3, 3, 8)]
    ∧ specSumAt DayItem.recovered 1
        [("A", [⟨"d1", 1, 1, 1⟩]), ("B", [⟨"d1", 2, 2, 5⟩])] "d1" = 6
    ∧ (alignedBar [("A", [⟨"d1", 1, 1, 1⟩]), ("B", [⟨"d1", 2, 2, 5⟩])] 1).map
        (fun e => e.2.2.2)
        ≠ [specSumAt DayItem.recovered 1
            [("A", [⟨"d1", 1, 1, 1⟩]), ("B", [⟨"d1", 2, 2, 5⟩])] "d1"]
    ∧ alignedLine [("A", [⟨"d1", 1, 1, 1⟩]), ("B", [⟨"d1", 2, 2, 5⟩])] 1
      = [("d1", 3, 3, 6)] := by
  refine ⟨by decide, by decide, by decide, by decide⟩

/-- C2 (code bug): `PrintCountry` on a country whose series has exactly one
record evaluates `countryItem[len(countryItem)-2]`, an index-out-of-range
runtime panic (src/main.go:283), not the explicit `InsufficientHistoryError`
the specification requires; on a series of length ≥ 2 it does return the
exact differences of the last two records' three metrics. -/
theorem print_country_single_record_panics :
    countryDetail [("Iran", [⟨"2020-1-22", 2, 0, 0⟩])] "Iran"
      = Except.error GoErr.panicIndexOutOfRange
    ∧ countryDetail
        [("Iran", [⟨"2020-1-22", 2, 0, 0⟩, ⟨"2020-1-23", 5, 1, 0⟩])] "Iran"
      = Except.ok ⟨"Iran", 5, 1, 0, 3, 1, 0⟩ := by
  refine ⟨rfl, rfl⟩

/-- C9: the decoder fails with a decode error exactly when the top-level
JSON value is not an object; in particular a top-level array fails, and a
top-level object never does (src/main.go:209-231: `jsonparser.ObjectEach`'s
error is the only one returned, and the inner `ArrayEach`/`Unmarshal`
failures are discarded or merely logged). -/
theorem decode_fails_iff_not_object :
    (∀ elems : List Json,
      decodeDataset (Json.arr elems) = Except.error DecodeErr.notObject)
    ∧ (∀ j : Json,
        decodeDataset j = Except.error DecodeErr.notObject
          ↔ ∀ kvs, j ≠ Json.obj kvs) := by
  constructor
  · intro elems
    rfl
  · intro j
    cases j <;> simp [decodeDataset]

/-- C10 (counterexample): the array element
`{"date": "2020-1-22", "confirmed": "x"}` fails field-level parsing, and a
record for it is appended in place — but that record is *not* the zero-valued
one the claim describes: `encoding/json`'s `Unmarshal` keeps the fields it
decoded before (and after) the mismatched one, so the appended record carries
the non-empty date `"2020-1-22"`. -/
theorem decode_malformed_element_partially_kept :
    (unmarshalDayItem
        (Json.obj [("date", Json.str "2020-1-22"), ("confirmed", Json.str "x")])).2
      = false
    ∧ decodeCountry
        (Json.arr [Json.obj [("date", Json.str "2020-1-22"), ("confirmed", Json.str "x")]])
      = [⟨"2020-1-22", 0, 0, 0⟩]
    ∧ (⟨"2020-1-22", 0, 0, 0⟩ : DayItem) ≠ zeroDayItem := by
  refine ⟨by decide, by decide, by decide⟩

/-- C10 (amended): a malformed array element is never skipped — the decoded
series has exactly one record per raw array element, positionally the result
of unmarshalling that element; the appended record keeps whatever fields
parsed successfully, and is the all-zero record when the element is not a
JSON object (or `null`). -/
theorem decode_lenient_spec (elems : List Json) (i : Nat) (e : Json)
    (hobj : ∀ kvs, e ≠ Json.obj kvs) (hnull : e ≠ Json.null) :
    (decodeCountry (Json.arr elems)).length = elems.length
    ∧ (decodeCountry (Json.arr elems))[i]?
        = (elems[i]?).map (fun x => (unmarshalDayItem x).1)
    ∧ unmarshalDayItem e = (zeroDayItem, false) := by
  refine ⟨by simp [decodeCountry], by simp [decodeCountry], ?_⟩
  cases e
  case obj kvs => exact absurd rfl (hobj kvs)
  case null => exact absurd rfl hnull
  all_goals rfl

/-- C10 witness: the amended lenient-decode statement at the concrete
one-element array `["a"]`. -/
theorem decode_lenient_spec_witness :
    (decodeCountry (Json.arr [Json.str "a"])).length = [Json.str "a"].length
    ∧ (decodeCountry (Json.arr [Json.str "a"]))[0]?
        = ([Json.str "a"][0]?).map (fun x => (unmarshalDayItem x).1)
    ∧ unmarshalDayItem (Json.str "a") = (zeroDayItem, false) :=
  decode_lenient_spec [Json.str "a"] 0 (Json.str "a")
    (fun _ h => Json.noConfusion h) (fun h => Json.noConfusion h)

/-- C4: for any dataset whose series are all non-empty (the decoder's
invariant; on an empty series src/main.go:228 would panic), the rank index
has one entry per country, its entries are exactly the (country, latest
confirmed count) pairs, and the counts are non-increasing from head to tail
(tie order unspecified: `sort.Sort` is unstable and `mergeSort` realises one
admissible order). -/
theorem build_rank_index_spec (data : Dataset) (hne : ∀ p ∈ data, p.2 ≠ []) :
    (buildRankIndex data).length = data.length
    ∧ (buildRankIndex data).Perm
        (data.map (fun p => Pair.mk p.1 (lastItem p.2).confirmed))
    ∧ (buildRankIndex data).Pairwise (fun a b => b.Value ≤ a.Value) := by
  refine ⟨?_, List.mergeSort_perm _ _, ?_⟩
  · rw [buildRankIndex, List.length_mergeSort, List.length_map]
  · rw [buildRankIndex]
    refine List.Pairwise.imp (fun h => of_decide_eq_true h)
      (List.sorted_mergeSort ?_ ?_
        (data.map (fun p => Pair.mk p.1 (lastItem p.2).confirmed)))
    · intro a b c hab hbc
      simp only [decide_eq_true_eq] at hab hbc ⊢
      omega
    · intro a b
      simp only [Bool.or_eq_true, decide_eq_true_eq]
      omega

/-- C4 witness: the rank-index properties at a concrete three-country
dataset. -/
theorem build_rank_index_spec_witness :
    (buildRankIndex [("A", [⟨"a", 5, 1, 2⟩]), ("B", [⟨"b", 10, 3, 4⟩]),
        ("C", [⟨"c", 7, 0, 0⟩])]).length
      = ([("A", [⟨"a", 5, 1, 2⟩]), ("B", [⟨"b", 10, 3, 4⟩]),
          ("C", [⟨"c", 7, 0, 0⟩])] : Dataset).length
    ∧ (buildRankIndex [("A", [⟨"a", 5, 1, 2⟩]), ("B", [⟨"b", 10, 3, 4⟩]),
        ("C", [⟨"c", 7, 0, 0⟩])]).Perm
        (([("A", [⟨"a", 5, 1, 2⟩]), ("B", [⟨"b", 10, 3, 4⟩]),
          ("C", [⟨"c", 7, 0, 0⟩])] : Dataset).map
          (fun p => Pair.mk p.1 (lastItem p.2).confirmed))
    ∧ (buildRankIndex [("A", [⟨"a", 5, 1, 2⟩]), ("B", [⟨"b", 10, 3, 4⟩]),
        ("C", [⟨"c", 7, 0, 0⟩])]).Pairwise (fun a b => b.Value ≤ a.Value) :=
  build_rank_index_spec
    [("A", [⟨"a", 5, 1, 2⟩]), ("B", [⟨"b", 10, 3, 4⟩]), ("C", [⟨"c", 7, 0, 0⟩])]
    (by decide)

/-- C5: for any dataset with pairwise-distinct country keys (a Go map cannot
hold duplicates), the name index is strictly ascending in the ordinal string
order and is a permutation of the keys: every key appears exactly once and
nothing else appears. -/
theorem build_name_index_spec (data : Dataset)
    (hnd : (data.map Prod.fst).Nodup) :
    (buildNameIndex data).Perm (data.map Prod.fst)
    ∧ (buildNameIndex data).Pairwise (fun a b : String => a < b) := by
  have hperm : (buildNameIndex data).Perm (data.map Prod.fst) :=
    List.mergeSort_perm _ _
  refine ⟨hperm, ?_⟩
  have hle : (buildNameIndex data).Pairwise
      (fun a b : String => decide (a ≤ b) = true) := by
    rw [buildNameIndex]
    refine List.sorted_mergeSort ?_ ?_ (data.map Prod.fst)
    · intro a b c hab hbc
      simp only [decide_eq_true_eq] at hab hbc ⊢
      exact le_trans hab hbc
    · intro a b
      simp only [Bool.or_eq_true, decide_eq_true_eq]
      exact le_total a b
  have hnodup : (buildNameIndex data).Nodup := hperm.nodup_iff.mpr hnd
  exact (hle.and hnodup).imp
    (fun h => lt_of_le_of_ne (of_decide_eq_true h.1) h.2)

/-- C5 witness: the name-index properties at a concrete three-country
dataset with unsorted keys. -/
theorem build_name_index_spec_witness :
    (buildNameIndex [("B", []), ("A", []), ("C", [])]).Perm
        (([("B", []), ("A", []), ("C", [])] : Dataset).map Prod.fst)
    ∧ (buildNameIndex [("B", []), ("A", []), ("C", [])]).Pairwise
        (fun a b : String => a < b) :=
  build_name_index_spec [("B", []), ("A", []), ("C", [])] (by decide)

lemma summaryTriple_foldl (data : Dataset) :
    ∀ acc : Int × Int × Int,
      data.foldl
        (fun acc p =>
          (acc.1 + (lastItem p.2).confirmed, acc.2.1 + (lastItem p.2).deaths,
            acc.2.2 + (lastItem p.2).recovered)) acc
        = (acc.1 + (data.map (fun p => (lastItem p.2).confirmed)).sum,
           acc.2.1 + (data.map (fun p => (lastItem p.2).deaths)).sum,
           acc.2.2 + (data.map (fun p => (lastItem p.2).recovered)).sum) := by
  induction data with
  | nil => intro acc; simp
  | cons p rest ih =>
    intro acc
    simp only [List.foldl_cons, List.map_cons, List.sum_cons, ih,
      Prod.mk.injEq]
    omega

/-- C6: on a non-empty dataset all of whose series are non-empty (empty
series would be a panic at src/main.go:240), `PrintSummary`'s totals are the
componentwise sums of the last record of every country. -/
theorem summary_totals_spec (data : Dataset) (hd : data ≠ [])
    (hs : ∀ p ∈ data, p.2 ≠ []) :
    summaryTriple data
      = ((data.map (fun p => (lastItem p.2).confirmed)).sum,
         (data.map (fun p => (lastItem p.2).deaths)).sum,
         (data.map (fun p => (lastItem p.2).recovered)).sum) := by
  rw [summaryTriple, summaryTriple_foldl]
  simp

/-- C6 witness: the specification's own example dataset
`{A: [(5,1,2)], B: [(10,3,4)]}`, whose summary is `(15, 4, 6)`. -/
theorem summary_totals_spec_witness :
    summaryTriple [("A", [⟨"a", 5, 1, 2⟩]), ("B", [⟨"b", 10, 3, 4⟩])]
      = ((([("A", [⟨"a", 5, 1, 2⟩]), ("B", [⟨"b", 10, 3, 4⟩])] : Dataset).map
            (fun p => (lastItem p.2).confirmed)).sum,
         (([("A", [⟨"a", 5, 1, 2⟩]), ("B", [⟨"b", 10, 3, 4⟩])] : Dataset).map
            (fun p => (lastItem p.2).deaths)).sum,
         (([("A", [⟨"a", 5, 1, 2⟩]), ("B", [⟨"b", 10, 3, 4⟩])] : Dataset).map
            (fun p => (lastItem p.2).recovered)).sum) :=
  summary_totals_spec [("A", [⟨"a", 5, 1, 2⟩]), ("B", [⟨"b", 10, 3, 4⟩])]
    (by decide) (by decide)

/-- C7: querying a name that is not a key of the dataset fails with the
country-not-found error in both the detail query (src/main.go:291) and the
windowed chart series (src/main.go:379); no rows are produced. -/
theorem country_not_found_spec (data : Dataset) (name : String) (max : Int)
    (h : ∀ p ∈ data, p.1 ≠ name) :
    countryDetail data name = Except.error GoErr.countryNotFound
    ∧ windowedCountrySeries data name max
        = Except.error GoErr.countryNotFound := by
  have hl : data.lookup name = none :=
    List.lookup_eq_none_iff.mpr
      (fun p hp => bne_iff_ne.mpr (Ne.symm (h p hp)))
  constructor
  · rw [countryDetail, hl]
  · rw [windowedCountrySeries, hl]

/-- C7 witness: querying the absent key `"X"` on a one-country dataset. -/
theorem country_not_found_spec_witness :
    countryDetail [("A", [⟨"a", 1, 0, 0⟩])] "X"
      = Except.error GoErr.countryNotFound
    ∧ windowedCountrySeries [("A", [⟨"a", 1, 0, 0⟩])] "X" 10
        = Except.error GoErr.countryNotFound :=
  country_not_found_spec [("A", [⟨"a", 1, 0, 0⟩])] "X" 10 (by decide)

/-- C8: for a country found in the dataset whose series is ascending by
date, and any window `max ≥ 1`, the windowed chart series is exactly the
last `min(max, length)` records in their original (chronological) order:
the backwards collection loop (src/main.go:368-377) followed by the final
reversal (383-386) yields `s.drop (s.length - max)`, which is ascending
whenever `s` is. -/
theorem windowed_series_spec (data : Dataset) (country : String)
    (s : List DayItem) (max : Int) (hs : data.lookup country = some s)
    (hmax : 1 ≤ max) (hsorted : s.Pairwise (fun a b => a.date ≤ b.date)) :
    windowedCountrySeries data country max
        = Except.ok (s.drop (s.length - max.toNat))
    ∧ (s.drop (s.length - max.toNat)).length = min max.toNat s.length
    ∧ (s.drop (s.length - max.toNat)).Pairwise
        (fun a b => a.date ≤ b.date) := by
  refine ⟨?_, ?_, ?_⟩
  · simp only [windowedCountrySeries, hs, visitOrder_reverse s max hmax]
  · rw [List.length_drop]
    omega
  · exact hsorted.sublist (List.drop_sublist _ _)

/-- C8 witness: a three-record series (non-strictly ascending dates) with
window 2 yields the last two records in chronological order. -/
theorem windowed_series_spec_witness :
    windowedCountrySeries
        [("A", [⟨"d", 1, 0, 0⟩, ⟨"d", 2, 0, 0⟩, ⟨"d", 3, 0, 0⟩])] "A" 2
      = Except.ok
          (([⟨"d", 1, 0, 0⟩, ⟨"d", 2, 0, 0⟩, ⟨"d", 3, 0, 0⟩] : List DayItem).drop
            (([⟨"d", 1, 0, 0⟩, ⟨"d", 2, 0, 0⟩, ⟨"d", 3, 0, 0⟩] : List DayItem).length
              - (2 : Int).toNat))
    ∧ (([⟨"d", 1, 0, 0⟩, ⟨"d", 2, 0, 0⟩, ⟨"d", 3, 0, 0⟩] : List DayItem).drop
        (([⟨"d", 1, 0, 0⟩, ⟨"d", 2, 0, 0⟩, ⟨"d", 3, 0, 0⟩] : List DayItem).length
          - (2 : Int).toNat)).length
        = min (2 : Int).toNat
            ([⟨"d", 1, 0, 0⟩, ⟨"d", 2, 0, 0⟩, ⟨"d", 3, 0, 0⟩] : List DayItem).length
    ∧ (([⟨"d", 1, 0, 0⟩, ⟨"d", 2, 0, 0⟩, ⟨"d", 3, 0, 0⟩] : List DayItem).drop
        (([⟨"d", 1, 0, 0⟩, ⟨"d", 2, 0, 0⟩, ⟨"d", 3, 0, 0⟩] : List DayItem).length
          - (2 : Int).toNat)).Pairwise (fun a b => a.date ≤ b.date) :=
  windowed_series_spec
    [("A", [⟨"d", 1, 0, 0⟩, ⟨"d", 2, 0, 0⟩, ⟨"d", 3, 0, 0⟩])] "A"
    [⟨"d", 1, 0, 0⟩, ⟨"d", 2, 0, 0⟩, ⟨"d", 3, 0, 0⟩] 2 rfl (by omega)
    (by simp [List.pairwise_cons])

/-- C3 (counterexample): with dataset `{A: [(d1,1,1,1)], B: [(d2,2,2,2)]}`
and a 1-day window, `"d2"` lies in country B's window but the aligned view
(both chart variants) contains an entry for `"d1"` only: labels are appended
solely while the first country is processed (`index == 0`,
src/main.go:348-350 and 465-467), so a date present only in a later
country's window never becomes a row. -/
theorem aligned_view_misses_unshared_date :
    "d2" ∈ (visitOrder [(⟨"d2", 2, 2, 2⟩ : DayItem)] 1).map DayItem.date
    ∧ (alignedLine [("A", [⟨"d1", 1, 1, 1⟩]), ("B", [⟨"d2", 2, 2, 2⟩])] 1).map
        Prod.fst = ["d1"]
    ∧ "d2" ∉ (alignedLine
        [("A", [⟨"d1", 1, 1, 1⟩]), ("B", [⟨"d2", 2, 2, 2⟩])] 1).map Prod.fst
    ∧ (alignedBar [("A", [⟨"d1", 1, 1, 1⟩]), ("B", [⟨"d2", 2, 2, 2⟩])] 1).map
        Prod.fst = ["d1"] := by
  refine ⟨by decide, by decide, by decide, by decide⟩

/-- C3 (amended): for a non-empty dataset and window `max ≥ 1`, the aligned
"all countries" view of `DrawCountryLineChart` has one row per date of the
*first-iterated* country's last `min(max, length)` records, in chronological
order — not per date of every country's window — and each row's confirmed,
deaths and recovered entries are the independent sums over exactly the
countries that have a record with that date among their last `max` records.
(For `DrawCountryBarChart` the recovered entry is instead contaminated by
the deaths accumulator; that defect is the subject of the C1 theorem.) -/
theorem aggregate_all_line_spec (c0 : String) (s0 : List DayItem)
    (rest : Dataset) (max : Int) (hmax : 1 ≤ max) :
    alignedLine ((c0, s0) :: rest) max
      = (s0.drop (s0.length - max.toNat)).map
          (fun x =>
            (x.date,
              specSumAt DayItem.confirmed max ((c0, s0) :: rest) x.date,
              specSumAt DayItem.deaths max ((c0, s0) :: rest) x.date,
              specSumAt DayItem.recovered max ((c0, s0) :: rest) x.date)) := by
  have hlab : (aggAll stepLine max initAgg ((c0, s0) :: rest) 0).labels
      = (visitOrder s0 max).map DayItem.date := by
    rw [aggAll, aggAll_stepLine_labels max rest _ 1 (by omega), aggCountry,
      foldl_stepLine_labels_zero]
    simp [initAgg]
  have hcm : ∀ d, (aggAll stepLine max initAgg ((c0, s0) :: rest) 0).cMap d
      = specSumAt DayItem.confirmed max ((c0, s0) :: rest) d := by
    intro d
    rw [aggAll_stepLine_cMap]
    simp [initAgg]
  have hdm : ∀ d, (aggAll stepLine max initAgg ((c0, s0) :: rest) 0).dMap d
      = specSumAt DayItem.deaths max ((c0, s0) :: rest) d := by
    intro d
    rw [aggAll_stepLine_dMap]
    simp [initAgg]
  have hrm : ∀ d, (aggAll stepLine max initAgg ((c0, s0) :: rest) 0).rMap d
      = specSumAt DayItem.recovered max ((c0, s0) :: rest) d := by
    intro d
    rw [aggAll_stepLine_rMap]
    simp [initAgg]
  simp only [alignedLine, alignedView]
  rw [hlab, ← List.map_reverse, visitOrder_reverse s0 max hmax, List.map_map]
  refine List.map_congr_left ?_
  intro x hx
  simp only [Function.comp]
  rw [hcm, hdm, hrm]

/-- C3 witness: the amended aligned-view statement at the concrete
one-country dataset `{A: [(a,1,2,3)]}` with a 1-day window. -/
theorem aggregate_all_line_spec_witness :
    alignedLine [("A", [⟨"a", 1, 2, 3⟩])] 1
      = (([⟨"a", 1, 2, 3⟩] : List DayItem).drop
          (([⟨"a", 1, 2, 3⟩] : List DayItem).length - (1 : Int).toNat)).map
          (fun x =>
            (x.date,
              specSumAt DayItem.confirmed 1 [("A", [⟨"a", 1, 2, 3⟩])] x.date,
              specSumAt DayItem.deaths 1 [("A", [⟨"a", 1, 2, 3⟩])] x.date,
              specSumAt DayItem.recovered 1 [("A", [⟨"a", 1, 2, 3⟩])] x.date)) :=
  aggregate_all_line_spec "A" [⟨"a", 1, 2, 3⟩] [] 1 (by omega)
